import Mathlib

/-!
Verification development for the telegram-file-downloader repository.

The definitions below are a shallow embedding of the later revision of the
source files (the one that imports `config.js`):
  - `src/config.js`      — the configuration constants;
  - `src/index.js`       — the coordinator: link queue, `processQueue`,
                           `createWorker` supervision (retry / timeout),
                           `processLink` / `validateTelegramLink`,
                           `readLinksFromFile`;
  - `src/worker.js`      — the download unit: `getFileInfo`, `downloadMedia`
                           (progress callback, pause/cancel checks),
                           `processLink` (link parsing, message fetch).
JavaScript machine integers do not overflow in any of the embedded code
paths (all counters are small), so numbers are modelled as `Nat`; the
floating-point speed display value is modelled as an exact rational `Rat`
(the `toFixed(2)` string rounding of the display layer is not modelled,
and division by a zero elapsed time, which yields Infinity in JS, yields 0
in `Rat`; no claim depends on either corner).
-/

namespace TFD

/-! ## Configuration (src/config.js) -/

namespace Config

/-- src/config.js: `MAX_SIMULTANEOUS_DOWNLOADS: 3`. -/
def MAX_SIMULTANEOUS_DOWNLOADS : Nat := 3

/-- src/config.js: `MAX_RETRIES: 3`. -/
def MAX_RETRIES : Nat := 3

/-- src/config.js: `DOWNLOAD_TIMEOUT: 300000` (milliseconds). -/
def DOWNLOAD_TIMEOUT : Nat := 300000

/-- src/config.js: `PROGRESS_UPDATE_INTERVAL: 500` (milliseconds). -/
def PROGRESS_UPDATE_INTERVAL : Nat := 500

end Config

/-! ## Worker pool state (src/index.js)

`linkQueue` is the FIFO array of pending links (`push` at the back,
`shift` from the front) and `activeWorkers` the live-unit counter.  Both
are mutated only by the coordinator thread: JavaScript's single-threaded
event loop makes the guard check `activeWorkers < MAX_SIMULTANEOUS_DOWNLOADS`
and the following increment one atomic step, which is how the step
relation below presents them. -/

structure PoolState where
  linkQueue : List String
  activeWorkers : Nat
deriving DecidableEq

/-- One atomic coordinator step of src/index.js:
  - `enqueue`: `processLink` pushes an accepted link (`linkQueue.push(link)`);
  - `dispatch`: one iteration of the `processQueue` loop — guarded by
    `linkQueue.length > 0 && activeWorkers < config.MAX_SIMULTANEOUS_DOWNLOADS`,
    it shifts the head link and increments `activeWorkers`;
  - `finish`: the `finally` block after `createWorker` settles decrements
    `activeWorkers` (and re-invokes `processQueue`, i.e. further `dispatch`
    steps);
  - `retryRespawn`: the worker error handler respawns a replacement worker
    inside the same `createWorker` promise chain; the queue and the counter
    are untouched. -/
inductive PoolStep : PoolState → PoolState → Prop
  | enqueue (link : String) (q : List String) (a : Nat) :
      PoolStep ⟨q, a⟩ ⟨q ++ [link], a⟩
  | dispatch (link : String) (q : List String) (a : Nat)
      (h : a < Config.MAX_SIMULTANEOUS_DOWNLOADS) :
      PoolStep ⟨link :: q, a⟩ ⟨q, a + 1⟩
  | finish (q : List String) (a : Nat) (h : 0 < a) :
      PoolStep ⟨q, a⟩ ⟨q, a - 1⟩
  | retryRespawn (q : List String) (a : Nat) (h : 0 < a) :
      PoolStep ⟨q, a⟩ ⟨q, a⟩

/-- The initial coordinator state of src/index.js:
`const linkQueue = []` and `let activeWorkers = 0`. -/
def initialPoolState : PoolState := ⟨[], 0⟩

/-- States the coordinator can reach from start-up. -/
def PoolReachable (s : PoolState) : Prop :=
  Relation.ReflTransGen PoolStep initialPoolState s

/-- C1: at every reachable coordinator state, the number of live download
workers (`activeWorkers`) never exceeds the configured bound
`MAX_SIMULTANEOUS_DOWNLOADS`: `processQueue` starts a worker only while
the counter is strictly below the bound, and every terminal outcome
decrements the counter before the loop re-enters. -/
theorem activeWorkers_le_max (s : PoolState) (h : PoolReachable s) :
    s.activeWorkers ≤ Config.MAX_SIMULTANEOUS_DOWNLOADS := by
  induction h with
  | refl => simp [initialPoolState]
  | tail _ hstep ih =>
    cases hstep with
    | enqueue link q a => exact ih
    | dispatch link q a hlt => exact hlt
    | finish q a hpos => exact le_trans (Nat.sub_le a 1) ih
    | retryRespawn q a hpos => exact ih

/-- C1 witness: a concrete reachable state (one link enqueued then
dispatched) satisfies the bound. -/
theorem activeWorkers_le_max_witness :
    (⟨[], 1⟩ : PoolState).activeWorkers ≤ Config.MAX_SIMULTANEOUS_DOWNLOADS :=
  activeWorkers_le_max ⟨[], 1⟩
    (Relation.ReflTransGen.tail
      (Relation.ReflTransGen.tail Relation.ReflTransGen.refl
        (PoolStep.enqueue "https://t.me/c/1234/1" [] 0))
      (PoolStep.dispatch "https://t.me/c/1234/1" [] 0 (by decide)))

/-! ## Retry supervision (src/index.js, `createWorker`)

`createWorker(link, stringSession, retryCount)` wraps one worker attempt in
a promise.  Its `'error'` message handler (index.js, later revision) reads:
  `downloads.delete(id);`
  `if (retryCount < config.MAX_RETRIES) resolve(createWorker(link, stringSession, retryCount + 1));`
  `else reject(new Error(...));`
so a failed attempt is retried by a direct recursive call — the link is
never pushed back onto `linkQueue`. -/

/-- Outcome reported by one worker attempt, as observed by `createWorker`'s
message handler. -/
inductive AttemptOutcome
  | success
  | failure
deriving DecidableEq

/-- Terminal result of the whole `createWorker` promise chain. -/
inductive TaskResult
  | resolved
  | rejectedMaxRetries
deriving DecidableEq

/-- src/index.js `createWorker`, run against a stream of per-attempt
outcomes: a `'complete'` message resolves; an `'error'` message respawns a
replacement worker with `retryCount + 1` while `retryCount < MAX_RETRIES`,
otherwise rejects with `Max retries reached`.  `none` means the outcome
stream was exhausted before the chain settled. -/
def createWorkerRun : List AttemptOutcome → Nat → Option TaskResult
  | [], _ => none
  | AttemptOutcome.success :: _, _ => some TaskResult.resolved
  | AttemptOutcome.failure :: rest, retryCount =>
    if retryCount < Config.MAX_RETRIES then createWorkerRun rest (retryCount + 1)
    else some TaskResult.rejectedMaxRetries

/-- Settlement action the coordinator takes on a worker event
(src/index.js, `createWorker`): resolve the task's promise, spawn a
replacement worker in place with the given `retryCount` (`respawn`), or
reject the promise with an error message. -/
inductive RetryAction
  | resolveTask
  | respawn (retryCount : Nat)
  | rejectTask (msg : String)
deriving DecidableEq

/-- src/index.js lines 339-350 (the `'error'` branch of the worker message
handler), as a function of the current link queue and the attempt's
`retryCount`: it returns the queue afterwards (unchanged — the handler
never references `linkQueue`) and the action taken. -/
def handleErrorMessage (linkQueue : List String) (retryCount : Nat) :
    List String × RetryAction :=
  (linkQueue,
    if retryCount < Config.MAX_RETRIES then RetryAction.respawn (retryCount + 1)
    else RetryAction.rejectTask "Max retries reached")

/-- C2 counterexample: a first failure (`retryCount = 0 < MAX_RETRIES`)
does trigger a retry, but the retried task does not re-enter the FIFO
queue — the queue is still empty after the Failed event, refuting the
claim that the task is requeued and picked up by the dispatch loop. -/
theorem failed_task_not_requeued :
    (handleErrorMessage [] 0).2 = RetryAction.respawn 1 ∧
    (handleErrorMessage [] 0).1 = [] := by
  constructor <;> rfl

/-- Auxiliary: while the retry budget lasts, a block of `k` consecutive
failures just advances `retryCount` by `k`. -/
theorem createWorkerRun_replicate_failure (k : Nat) :
    ∀ (retryCount : Nat) (l : List AttemptOutcome),
      retryCount + k ≤ Config.MAX_RETRIES →
      createWorkerRun (List.replicate k AttemptOutcome.failure ++ l) retryCount =
        createWorkerRun l (retryCount + k) := by
  induction k with
  | zero => intro rc l _; simp [List.replicate]
  | succ n ih =>
    intro rc l h
    have hlt : rc < Config.MAX_RETRIES := by omega
    have := ih (rc + 1) l (by omega)
    simp only [List.replicate_succ, List.cons_append, createWorkerRun, if_pos hlt]
    rw [List.append_eq, this]
    congr 1
    omega

/-- C2 (amended): retry happens immediately in place, not via the queue.
For every `k ≤ MAX_RETRIES`, a task that fails `k` times and then succeeds
resolves (each failure respawning a worker with the attempt count
incremented by one); and a task that fails `MAX_RETRIES + 1` times in a row
is rejected as finally Failed with no further attempt ever dispatched —
the result is independent of any outcomes that could follow. -/
theorem createWorkerRun_retry_policy :
    (∀ k : Nat, k ≤ Config.MAX_RETRIES →
      createWorkerRun
        (List.replicate k AttemptOutcome.failure ++ [AttemptOutcome.success]) 0 =
        some TaskResult.resolved) ∧
    (∀ rest : List AttemptOutcome,
      createWorkerRun
        (List.replicate (Config.MAX_RETRIES + 1) AttemptOutcome.failure ++ rest) 0 =
        some TaskResult.rejectedMaxRetries) := by
  constructor
  · intro k hk
    rw [createWorkerRun_replicate_failure k 0 [AttemptOutcome.success] (by omega)]
    rfl
  · intro rest
    have hsplit :
        List.replicate (Config.MAX_RETRIES + 1) AttemptOutcome.failure ++ rest =
          List.replicate Config.MAX_RETRIES AttemptOutcome.failure ++
            (AttemptOutcome.failure :: rest) := by
      rw [List.replicate_succ']
      simp
    rw [hsplit,
      createWorkerRun_replicate_failure Config.MAX_RETRIES 0
        (AttemptOutcome.failure :: rest) (by omega)]
    simp [createWorkerRun]

/-- C2 witness: with `MAX_RETRIES = 3`, three failures followed by a
success resolve, and four consecutive failures reject with no dependence
on later outcomes. -/
theorem createWorkerRun_retry_policy_witness :
    createWorkerRun
      (List.replicate 3 AttemptOutcome.failure ++ [AttemptOutcome.success]) 0 =
      some TaskResult.resolved ∧
    createWorkerRun
      (List.replicate 4 AttemptOutcome.failure ++ [AttemptOutcome.success]) 0 =
      some TaskResult.rejectedMaxRetries :=
  ⟨createWorkerRun_retry_policy.1 3 (by decide),
    createWorkerRun_retry_policy.2 [AttemptOutcome.success]⟩

/-! ## Worker-to-coordinator messages and their handling (src/index.js) -/

/-- Progress payload posted by the worker's progress callback
(src/worker.js): the raw byte count, the wall-clock time of the sample,
and the speed value it computed. -/
structure ProgressEmission where
  downloadedBytes : Nat
  atTime : Nat
  speedMBps : Rat
deriving DecidableEq

/-- Message posted by the worker over `parentPort` (src/worker.js).
`complete` carries the spread of `downloadMedia`'s return value: on a
successful stream it holds the file name with no error field; when
`downloadMedia` returned `{ error: ... }` (message without downloadable
media) the spread produces a `complete` message whose payload is just that
error field.  There is no dedicated cancelled message type anywhere in the
protocol. -/
inductive ParentMessage
  | progress (e : ProgressEmission)
  | complete (errorField : Option String)
  | error (msg : String)
deriving DecidableEq

/-- src/index.js, the `worker.on('message', ...)` handler of `createWorker`
(later revision): a `'progress'` message only updates the display
(`none`: the promise stays pending); a `'complete'` message resolves the
task; an `'error'` message retries while `retryCount < config.MAX_RETRIES`
and otherwise rejects with `Max retries reached`. -/
def indexOnWorkerMessage (m : ParentMessage) (retryCount : Nat) :
    Option RetryAction :=
  match m with
  | ParentMessage.progress _ => none
  | ParentMessage.complete _ => some RetryAction.resolveTask
  | ParentMessage.error _ =>
    some (if retryCount < Config.MAX_RETRIES then RetryAction.respawn (retryCount + 1)
      else RetryAction.rejectTask "Max retries reached")

/-! ## Timeout supervision (src/index.js, `createWorker` lines 315-320)

`createWorker` registers `setTimeout(..., config.DOWNLOAD_TIMEOUT)` as soon
as the worker is spawned; when it fires it runs
  `worker.terminate(); downloads.delete(id); reject(new Error('Download timeout'));`
`clearTimeout(timeout)` is called only in the `'complete'` and `'error'`
message branches and in the worker `'error'` / `'exit'` handlers — the
`'progress'` branch and the pause/resume commands sent to the worker never
touch the timer. -/

/-- Events the coordinator can observe on a live worker, for the purpose of
the download timer: terminal worker events clear the timer; progress
messages and operator pause/resume/cancel commands do not appear in any
`clearTimeout` call site. -/
inductive TimerEvent
  | msgProgress
  | msgComplete
  | msgError
  | workerErrored
  | workerExited
  | cmdPause
  | cmdResume
  | cmdCancel
deriving DecidableEq

/-- Whether an event's handler in src/index.js calls `clearTimeout` on the
download timer. -/
def clearsDownloadTimer : TimerEvent → Bool
  | TimerEvent.msgComplete => true
  | TimerEvent.msgError => true
  | TimerEvent.workerErrored => true
  | TimerEvent.workerExited => true
  | TimerEvent.msgProgress => false
  | TimerEvent.cmdPause => false
  | TimerEvent.cmdResume => false
  | TimerEvent.cmdCancel => false

/-- JavaScript `setTimeout` semantics for the download timer: registered at
`dispatchTime`, it fires at `dispatchTime + DOWNLOAD_TIMEOUT` unless some
earlier event cleared it.  `events` is the timestamped list of observed
events of this worker. -/
def downloadTimerFiresAt (dispatchTime : Nat)
    (events : List (Nat × TimerEvent)) : Option Nat :=
  if events.any (fun te =>
      clearsDownloadTimer te.2 && decide (te.1 < dispatchTime + Config.DOWNLOAD_TIMEOUT))
  then none
  else some (dispatchTime + Config.DOWNLOAD_TIMEOUT)

/-- Effect of the timeout firing (src/index.js lines 315-320): the worker's
execution context is forcibly terminated, the task is dropped from the
`downloads` map, and the promise is rejected with `Download timeout` —
unconditionally, with no retry branch. -/
structure TimeoutHandlerEffect where
  terminatesWorker : Bool
  removesFromDownloads : Bool
  action : RetryAction
deriving DecidableEq

/-- The body of the `setTimeout` callback in `createWorker`. -/
def onDownloadTimeout : TimeoutHandlerEffect :=
  ⟨true, true, RetryAction.rejectTask "Download timeout"⟩

/-- C3 counterexample: a timed-out first attempt (`retryCount = 0`, below
`MAX_RETRIES = 3`) is rejected outright, while a transport Failed event at
the same attempt count is retried — the timeout is not treated identically
to a Failed event under the retry accounting. -/
theorem timeout_not_retried :
    onDownloadTimeout.action = RetryAction.rejectTask "Download timeout" ∧
    onDownloadTimeout.action ≠ RetryAction.respawn 1 ∧
    indexOnWorkerMessage (ParentMessage.error "transport failure") 0 =
      some (RetryAction.respawn 1) := by
  refine ⟨rfl, by decide, ?_⟩
  rfl

/-- C3 (amended): the deadline is wall-clock and attached at dispatch time
(`dispatchTime + DOWNLOAD_TIMEOUT`); a worker whose observed events are
only progress samples and pause/resume/cancel commands — pausing included —
never defers it (the timer fires exactly at the deadline); and when it
fires the pool forcibly terminates the worker's execution context and
rejects the task immediately, with no retry regardless of the attempt
count. -/
theorem download_timeout_policy (dispatchTime : Nat)
    (events : List (Nat × TimerEvent))
    (h : ∀ e ∈ events,
      e.2 = TimerEvent.msgProgress ∨ e.2 = TimerEvent.cmdPause ∨
      e.2 = TimerEvent.cmdResume ∨ e.2 = TimerEvent.cmdCancel) :
    downloadTimerFiresAt dispatchTime events =
      some (dispatchTime + Config.DOWNLOAD_TIMEOUT) ∧
    onDownloadTimeout.terminatesWorker = true ∧
    ∀ retryCount : Nat,
      onDownloadTimeout.action ≠ RetryAction.respawn (retryCount + 1) := by
  refine ⟨?_, rfl, ?_⟩
  · unfold downloadTimerFiresAt
    rw [if_neg]
    simp only [List.any_eq_true, not_exists, Bool.and_eq_true, not_and, decide_eq_true_eq]
    intro te hte hclear
    rcases h te hte with h1 | h1 | h1 | h1 <;>
      simp [h1, clearsDownloadTimer] at hclear
  · intro retryCount
    simp [onDownloadTimeout]

/-- C3 witness: a worker paused at time 10 and resumed at time 20 after
dispatch at time 0 still times out exactly at `DOWNLOAD_TIMEOUT`, and the
first-attempt timeout is not a retry. -/
theorem download_timeout_policy_witness :
    downloadTimerFiresAt 0 [(10, TimerEvent.cmdPause), (20, TimerEvent.cmdResume)] =
      some (0 + Config.DOWNLOAD_TIMEOUT) ∧
    onDownloadTimeout.action ≠ RetryAction.respawn 1 :=
  ⟨(download_timeout_policy 0 [(10, TimerEvent.cmdPause), (20, TimerEvent.cmdResume)]
      (by intro e he; simp at he; rcases he with h | h <;> simp [h])).1,
    (download_timeout_policy 0 [(10, TimerEvent.cmdPause), (20, TimerEvent.cmdResume)]
      (by intro e he; simp at he; rcases he with h | h <;> simp [h])).2.2 0⟩

/-! ## File information and sink naming (src/worker.js) -/

/-- The media payload of a fetched Telegram message, as far as
`getFileInfo` inspects it: a `MessageMediaDocument` (size, MIME type and an
optional `DocumentAttributeFilename`), a `MessageMediaPhoto` (photo id and
the byte size of its largest listed resolution), or any other media class,
which `getFileInfo` does not recognise. -/
inductive MessageMedia
  | mediaDocument (size : Nat) (mimeType : String) (fileNameAttr : Option String)
  | mediaPhoto (photoId : Nat) (largestSizeBytes : Nat)
  | otherMedia
deriving DecidableEq

/-- Return value of `getFileInfo` (src/worker.js): size and name of the
attachment. -/
structure FileInfo where
  size : Nat
  name : String
deriving DecidableEq

/-- src/worker.js `getFileExtension`: the `mime-types` library lookup with
a fallback default.  The library itself is an external collaborator, so the
lookup table is passed in as `mimeExtension`. -/
def getFileExtension (mimeExtension : String → Option String)
    (mimeType : String) (defaultExt : String) : String :=
  (mimeExtension mimeType).getD defaultExt

/-- src/worker.js `getFileInfo` (later revision): a document's name is its
filename attribute when present, else `file.<ext>` from the MIME type; a
photo is named `photo_<id>.jpg`; anything else yields `null`.  (The
document branch also derives an extension field from the name or MIME
type; no downstream code that the claims touch reads it, and the sink name
uses only `name`.) -/
def getFileInfo (mimeExtension : String → Option String)
    (media : Option MessageMedia) : Option FileInfo :=
  match media with
  | some (MessageMedia.mediaDocument size mimeType fileNameAttr) =>
    match fileNameAttr with
    | some fileName => some ⟨size, fileName⟩
    | none => some ⟨size, "file." ++ getFileExtension mimeExtension mimeType "bin"⟩
  | some (MessageMedia.mediaPhoto photoId largestSizeBytes) =>
    some ⟨largestSizeBytes, "photo_" ++ toString photoId ++ ".jpg"⟩
  | some MessageMedia.otherMedia => none
  | none => none

/-- src/worker.js line 257: the destination sink path,
`path.join(downloadsPath, "downloaded_" + fileInfo.name)`.  For a normal
directory path and a relative file segment `path.join` is separator
insertion. -/
def sinkFileName (downloadsPath name : String) : String :=
  downloadsPath ++ "/" ++ ("downloaded_" ++ name)

/-- One download attempt as the orchestrator sees it: the per-attempt
identity (spawn id / retry count) and the original filename resolved from
the message. -/
structure Attempt where
  attemptId : Nat
  originalName : String
deriving DecidableEq

/-- The sink path an attempt opens: src/worker.js derives it from the
original filename only — the attempt identity does not enter the name. -/
def attemptSinkName (downloadsPath : String) (a : Attempt) : String :=
  sinkFileName downloadsPath a.originalName

/-- C5 counterexample: two distinct attempts (a retry, or two concurrent
units) resolving a file with the same original name open the very same
sink path — names do collide, there is no per-attempt identifier in the
path. -/
theorem sink_names_collide :
    (⟨0, "video.mp4"⟩ : Attempt) ≠ (⟨1, "video.mp4"⟩ : Attempt) ∧
    attemptSinkName "Downloads" ⟨0, "video.mp4"⟩ =
      attemptSinkName "Downloads" ⟨1, "video.mp4"⟩ := by
  constructor
  · decide
  · rfl

/-- C5 (amended): the sink path is deterministic in the original filename
alone — two attempts in the same downloads directory share a sink path
exactly when their original filenames are equal; attempts for distinct
filenames never contend, but retried or concurrent attempts for the same
filename always do. -/
theorem attemptSinkName_eq_iff (downloadsPath : String) (a b : Attempt) :
    attemptSinkName downloadsPath a = attemptSinkName downloadsPath b ↔
      a.originalName = b.originalName := by
  constructor
  · intro h
    have hdata := congrArg String.data h
    simp only [attemptSinkName, sinkFileName, String.data_append] at hdata
    have := List.append_cancel_left (List.append_cancel_left hdata)
    exact String.ext this
  · intro h
    simp [attemptSinkName, sinkFileName, h]

/-- C5 amended witness: equal names give the equal path, and the two
concrete distinct-name attempts below do not collide. -/
theorem attemptSinkName_eq_iff_witness :
    attemptSinkName "Downloads" ⟨0, "a.bin"⟩ =
      attemptSinkName "Downloads" ⟨7, "a.bin"⟩ ∧
    attemptSinkName "Downloads" ⟨0, "a.bin"⟩ ≠
      attemptSinkName "Downloads" ⟨0, "b.bin"⟩ :=
  ⟨(attemptSinkName_eq_iff "Downloads" ⟨0, "a.bin"⟩ ⟨7, "a.bin"⟩).2 rfl,
    fun h => by
      have := (attemptSinkName_eq_iff "Downloads" ⟨0, "a.bin"⟩ ⟨0, "b.bin"⟩).1 h
      simp at this⟩

/-! ## Pause/cancel control inside the progress callback
(src/worker.js, `downloadMedia`, lines 268-299)

The callback begins with
  `while (isPaused && !isCancelled) return new Promise(...);`
  `if (isCancelled) { file.close(); fs.unlink(fileName, () => \x7b\x7d); reject(new Error('Download cancelled')); return; }`
so a paused, non-cancelled callback parks on a promise, and a cancelled
one closes the sink, deletes the partial file and rejects the
`downloadMedia` promise with the error `Download cancelled`. -/

/-- What the control check at the top of the progress callback does. -/
structure CallbackControlEffect where
  waitsPaused : Bool
  closesFile : Bool
  deletesPartialFile : Bool
  rejection : Option String
deriving DecidableEq

/-- The control check of the progress callback, as a function of the two
worker-local flags set by the `parentPort` message handler. -/
def callbackControlEffect (isPaused isCancelled : Bool) : CallbackControlEffect :=
  if isPaused && !isCancelled then ⟨true, false, false, none⟩
  else if isCancelled then ⟨false, true, true, some "Download cancelled"⟩
  else ⟨false, false, false, none⟩

/-! ## processLink reporting (src/worker.js, lines 330-375)

`processLink` awaits `downloadMedia` on the fetched message and posts
`{ type: 'complete', ...downloadResult }` when it returns, so a
`downloadMedia` return value of `{ error: ... }` (the no-media case) is
spread into a `'complete'` message carrying only that error field.  A
`downloadMedia` rejection is caught and posted as
`{ type: 'error', message: 'Error processing link: ' + error.message }`. -/

/-- How one `downloadMedia` call ended, as `processLink` observes it:
a normal completion (the returned `{ fileName, totalSize, finalSpeed }`
object), the `{ error }` object returned when `getFileInfo` found no
downloadable media, or a rejection. -/
inductive DownloadMediaResult
  | completedOk (fileName : String)
  | noMediaObject (errMsg : String)
  | threw (msg : String)
deriving DecidableEq

/-- src/worker.js `processLink` after the `GetMessages` call: with a
non-empty `result.messages`, the `downloadMedia` outcome is reported to
the coordinator as shown above; with an empty result it posts
`Message not found.` as an error. -/
def processLinkReport (messagesNonempty : Bool) (dm : DownloadMediaResult) :
    ParentMessage :=
  if messagesNonempty then
    match dm with
    | DownloadMediaResult.completedOk _ => ParentMessage.complete none
    | DownloadMediaResult.noMediaObject e => ParentMessage.complete (some e)
    | DownloadMediaResult.threw m =>
      ParentMessage.error ("Error processing link: " ++ m)
  else ParentMessage.error "Message not found."

/-- The error object `downloadMedia` returns when the fetched message
carries no downloadable media (src/worker.js lines 250-253). -/
def noMediaError : String := "The message does not contain downloadable media."

/-- C4 counterexample: with a Cancel signal pending (`isCancelled = true`,
not paused) the unit does delete the partial file, but it rejects with
`Download cancelled`; the worker reports that rejection as a plain
`'error'` message — the protocol has no distinct cancelled event — and the
pool's handler, at attempt count `0 < MAX_RETRIES`, responds by spawning a
retry.  The cancelled attempt is therefore reprocessed as a transport
failure, refuting the claim. -/
theorem cancelled_attempt_retried :
    (callbackControlEffect false true).deletesPartialFile = true ∧
    (callbackControlEffect false true).rejection = some "Download cancelled" ∧
    processLinkReport true (DownloadMediaResult.threw "Download cancelled") =
      ParentMessage.error "Error processing link: Download cancelled" ∧
    indexOnWorkerMessage
      (processLinkReport true (DownloadMediaResult.threw "Download cancelled")) 0 =
      some (RetryAction.respawn 1) := by
  refine ⟨rfl, rfl, rfl, rfl⟩

/-- C4 (amended): on a pending Cancel the unit closes the sink, deletes
the partial output file and rejects the attempt with `Download cancelled`;
the rejection travels the generic error path (`'error'` message), so the
pool applies the ordinary retry accounting to it — a cancelled attempt
with attempt count below `MAX_RETRIES` is retried, and only one at or
above the bound is finally rejected.  No outcome distinct from Failed
exists for cancellation. -/
theorem cancel_follows_error_path (retryCount : Nat)
    (h : retryCount < Config.MAX_RETRIES) :
    (callbackControlEffect false true).deletesPartialFile = true ∧
    (callbackControlEffect false true).closesFile = true ∧
    indexOnWorkerMessage
      (processLinkReport true (DownloadMediaResult.threw "Download cancelled"))
      retryCount = some (RetryAction.respawn (retryCount + 1)) := by
  refine ⟨rfl, rfl, ?_⟩
  simp [processLinkReport, indexOnWorkerMessage, if_pos h]

/-- C4 amended witness: attempt count 2 is below `MAX_RETRIES = 3`, and the
cancelled attempt is deleted from disk yet retried as attempt 3. -/
theorem cancel_follows_error_path_witness :
    (callbackControlEffect false true).deletesPartialFile = true ∧
    (callbackControlEffect false true).closesFile = true ∧
    indexOnWorkerMessage
      (processLinkReport true (DownloadMediaResult.threw "Download cancelled")) 2 =
      some (RetryAction.respawn 3) :=
  cancel_follows_error_path 2 (by decide)

/-- C7 (code bug): a fetched message with no downloadable attachment makes
`downloadMedia` return the `{ error }` object, which `processLink` spreads
into a `'complete'` message, and the pool's `'complete'` branch resolves
the task as a successful completion — it is never retried, but neither is
it reported as Failed, contradicting the spec's MediaNotFound contract
(and the code's own warning log and `error` label for this value). -/
theorem no_media_reported_as_complete :
    getFileInfo (fun _ => none) (some MessageMedia.otherMedia) = none ∧
    processLinkReport true (DownloadMediaResult.noMediaObject noMediaError) =
      ParentMessage.complete (some noMediaError) ∧
    indexOnWorkerMessage
      (processLinkReport true (DownloadMediaResult.noMediaObject noMediaError)) 0 =
      some RetryAction.resolveTask := by
  refine ⟨rfl, rfl, rfl⟩

/-! ## Link validation and enqueue (src/index.js lines 397-413,
src/worker.js lines 336-354)

`validateTelegramLink` is the regex test `/^https?:\/\/t\.me\/c\//`, i.e. a
pure prefix check for `http://t.me/c/` or `https://t.me/c/`.  `processLink`
pushes the link onto `linkQueue` exactly when that test passes; otherwise
it logs a warning and returns.  The worker's own `processLink`, by
contrast, handles two shapes: any link containing `t.me/c/` (private) and
any link matching `/t\.me\/[a-zA-Z0-9_]+\/\d+/` (public). -/

/-- Match a literal character sequence at the front of a list, returning
the remainder on success. -/
def dropLit : List Char → List Char → Option (List Char)
  | [], l => some l
  | _ :: _, [] => none
  | p :: ps, c :: cs => if p = c then dropLit ps cs else none

/-- src/index.js `validateTelegramLink`: the anchored, unterminated regex
`^https?:\/\/t\.me\/c\/` — a prefix test and nothing more. -/
def validateTelegramLink (link : String) : Bool :=
  (dropLit "https://t.me/c/".data link.data).isSome ||
  (dropLit "http://t.me/c/".data link.data).isSome

/-- src/index.js `processLink` (later revision): push the link onto the
queue when `validateTelegramLink` passes, else warn and drop it.  Returns
the queue afterwards and whether the link was queued. -/
def indexProcessLink (linkQueue : List String) (link : String) :
    List String × Bool :=
  if validateTelegramLink link then (linkQueue ++ [link], true)
  else (linkQueue, false)

/-- A character of the regex class `[a-zA-Z0-9_]` (ASCII word character). -/
def isWordChar (c : Char) : Bool := c.isAlpha || c.isDigit || c = '_'

/-- Does `/t\.me\/[a-zA-Z0-9_]+\/\d+/` match starting exactly at the head
of the list?  (Word characters cannot be `/`, so backtracking over the
`+` cannot create a match the maximal run misses.) -/
def matchPublicAt : List Char → Bool
  | 't' :: '.' :: 'm' :: 'e' :: '/' :: rest =>
    let w := rest.takeWhile isWordChar
    let rest2 := rest.dropWhile isWordChar
    !w.isEmpty &&
      match rest2 with
      | '/' :: d :: _ => d.isDigit
      | _ => false
  | _ => false

/-- Unanchored search of the public-link regex, as `String.match` performs
it: try every start position. -/
def searchPublicPattern : List Char → Bool
  | [] => false
  | c :: rest => matchPublicAt (c :: rest) || searchPublicPattern rest

/-- Substring containment (`String.prototype.includes`): the pattern
matches at some start position. -/
def containsLit (pat : List Char) : List Char → Bool
  | [] => (dropLit pat []).isSome
  | c :: rest => (dropLit pat (c :: rest)).isSome || containsLit pat rest

/-- src/worker.js `processLink` link dispatch: the worker handles a link
when it contains `t.me/c/` (private branch) or the public regex matches
somewhere in it; every other link throws `Unsupported link format`. -/
def workerLinkSupported (link : String) : Bool :=
  containsLit "t.me/c/".data link.data || searchPublicPattern link.data

/-- Modelled from the spec: the private channel-reference shape
`https?://t.me/c/<channel_id>/<message_id>` with numeric ids, written out
from the claim's words for the refinement comparison. -/
def digitsThenSlashDigits (l : List Char) : Bool :=
  let ds := l.takeWhile Char.isDigit
  let rest := l.dropWhile Char.isDigit
  !ds.isEmpty &&
    match rest with
    | '/' :: rest2 => !rest2.isEmpty && rest2.all Char.isDigit
    | _ => false

/-- Modelled from the spec: full private shape match. -/
def specPrivateShape (link : String) : Bool :=
  match dropLit "https://t.me/c/".data link.data with
  | some rest => digitsThenSlashDigits rest
  | none =>
    match dropLit "http://t.me/c/".data link.data with
    | some rest => digitsThenSlashDigits rest
    | none => false

/-- Modelled from the spec: the public channel-reference shape
`https?://t.me/<channel_name>/<message_id>`. -/
def nameThenSlashDigits (l : List Char) : Bool :=
  let nm := l.takeWhile isWordChar
  let rest := l.dropWhile isWordChar
  !nm.isEmpty &&
    match rest with
    | '/' :: rest2 => !rest2.isEmpty && rest2.all Char.isDigit
    | _ => false

/-- Modelled from the spec: full public shape match. -/
def specPublicShape (link : String) : Bool :=
  match dropLit "https://t.me/".data link.data with
  | some rest => nameThenSlashDigits rest
  | none =>
    match dropLit "http://t.me/".data link.data with
    | some rest => nameThenSlashDigits rest
    | none => false

/-- C6 counterexample: a well-formed public channel link — one of the two
supported shapes, and one the download worker itself handles — fails
`validateTelegramLink` and is never queued, refuting the claimed
if-and-only-if. -/
theorem public_link_never_queued :
    specPublicShape "https://t.me/somechannel/42" = true ∧
    workerLinkSupported "https://t.me/somechannel/42" = true ∧
    indexProcessLink [] "https://t.me/somechannel/42" = ([], false) := by
  refine ⟨by decide, by decide, by decide⟩

/-- Auxiliary: a full private-shape link in particular carries the
`https?://t.me/c/` prefix that `validateTelegramLink` tests for. -/
theorem validateTelegramLink_of_specPrivateShape (link : String)
    (h : specPrivateShape link = true) : validateTelegramLink link = true := by
  unfold specPrivateShape at h
  unfold validateTelegramLink
  cases h1 : dropLit "https://t.me/c/".data link.data with
  | some r => simp [h1]
  | none =>
    cases h2 : dropLit "http://t.me/c/".data link.data with
    | some r => simp [h1, h2]
    | none => rw [h1, h2] at h; simp at h

/-- C6 (amended): `processLink` queues a link exactly when it begins with
`http://t.me/c/` or `https://t.me/c/` (the private prefix — a bare prefix
test, not a full-shape check); every full private-shape link is appended
to the queue, and a rejected link leaves the queue untouched.  Links of
only the public shape are never queued (the counterexample), although the
worker supports them. -/
theorem enqueue_private_prefix_only (q : List String) (link : String) :
    ((indexProcessLink q link).2 = true ↔ validateTelegramLink link = true) ∧
    (specPrivateShape link = true → (indexProcessLink q link).1 = q ++ [link]) ∧
    ((indexProcessLink q link).2 = false → (indexProcessLink q link).1 = q) := by
  refine ⟨?_, ?_, ?_⟩
  · by_cases h : validateTelegramLink link = true <;> simp [indexProcessLink, h]
  · intro hp
    have hv := validateTelegramLink_of_specPrivateShape link hp
    simp [indexProcessLink, hv]
  · intro h2
    by_cases h : validateTelegramLink link = true <;>
      simp [indexProcessLink, h] at h2 ⊢

/-- C6 amended witness: a concrete private-shape link is appended to the
empty queue. -/
theorem enqueue_private_prefix_only_witness :
    (indexProcessLink [] "https://t.me/c/1234567/89").1 =
      [] ++ ["https://t.me/c/1234567/89"] :=
  (enqueue_private_prefix_only [] "https://t.me/c/1234567/89").2.1 (by decide)

/-! ## Progress aggregation (src/worker.js, `downloadMedia` lines 259-299)

Per attempt, `downloadMedia` sets `startTime = Date.now()` and
`lastUpdateTime = 0`, then on each raw progress sample computes
  `elapsedTime = (currentTime - startTime) / 1000;`
  `speed = downloaded / elapsedTime / (1024 * 1024);`
and posts a `'progress'` message only when
`currentTime - lastUpdateTime >= config.PROGRESS_UPDATE_INTERVAL`, setting
`lastUpdateTime = currentTime` on emission.  On natural stream completion
the `.then` branch always posts the `'complete'` message.  Wall-clock
times are monotone, so the JS number subtractions agree with `Nat`
subtraction (and when they would go negative both sides fail the gate). -/

/-- The mutable per-attempt aggregation state of `downloadMedia`. -/
structure ProgressState where
  startTime : Nat
  lastUpdateTime : Nat
deriving DecidableEq

/-- The speed value the code computes: total bytes downloaded so far,
divided by the seconds elapsed since the start of the attempt, in MB/s. -/
def codeSpeedMBps (startTime downloaded currentTime : Nat) : Rat :=
  (downloaded : Rat) / (((currentTime : Rat) - (startTime : Rat)) / 1000) /
    (1024 * 1024)

/-- One invocation of the progress callback on a raw
`(downloadedBytes, currentTime)` sample: emit when the interval gate
passes (updating `lastUpdateTime`), else stay silent. -/
def progressCallbackSample (st : ProgressState) (downloaded currentTime : Nat) :
    Option ProgressEmission × ProgressState :=
  if Config.PROGRESS_UPDATE_INTERVAL ≤ currentTime - st.lastUpdateTime then
    (some ⟨downloaded, currentTime, codeSpeedMBps st.startTime downloaded currentTime⟩,
      ⟨st.startTime, currentTime⟩)
  else (none, st)

/-- Run the callback over a whole sample trace, collecting the emitted
updates. -/
def runProgressSamples (st : ProgressState) :
    List (Nat × Nat) → List ProgressEmission
  | [] => []
  | (downloaded, t) :: rest =>
    match progressCallbackSample st downloaded t with
    | (some e, st2) => e :: runProgressSamples st2 rest
    | (none, st2) => runProgressSamples st2 rest

/-- The full message sequence of a naturally completing attempt: the gated
progress updates followed by the unconditional `'complete'` message posted
from the `.then` branch. -/
def downloadMediaMessagesOnSuccess (st : ProgressState)
    (samples : List (Nat × Nat)) : List ParentMessage :=
  (runProgressSamples st samples).map ParentMessage.progress ++
    [ParentMessage.complete none]

/-- Modelled from the spec: the instantaneous rate the Progress Aggregator
contract prescribes — bytes since the last emitted sample divided by the
wall time elapsed since that emission (same MB/s units as the code). -/
def specInstantRateMBps (prevBytes prevTime downloaded currentTime : Nat) : Rat :=
  (((downloaded : Rat) - (prevBytes : Rat))) /
    ((((currentTime : Rat) - (prevTime : Rat))) / 1000) / (1024 * 1024)

/-- C8 counterexample: with `startTime = 0`, a sample of 1 MiB at t=1000ms
is emitted, and a second sample still at 1 MiB at t=2000ms is emitted with
speed 1/2 MB/s — total bytes over total elapsed time — whereas the claimed
instantaneous rate (bytes since the previous emission over the second that
elapsed since it) is 0. -/
theorem progress_rate_since_start_cex :
    runProgressSamples ⟨0, 0⟩ [(1048576, 1000), (1048576, 2000)] =
      [⟨1048576, 1000, codeSpeedMBps 0 1048576 1000⟩,
        ⟨1048576, 2000, codeSpeedMBps 0 1048576 2000⟩] ∧
    codeSpeedMBps 0 1048576 2000 = 1 / 2 ∧
    specInstantRateMBps 1048576 1000 1048576 2000 = 0 ∧
    (1 / 2 : Rat) ≠ 0 := by
  refine ⟨rfl, ?_, ?_, by norm_num⟩
  · unfold codeSpeedMBps
    norm_num
  · unfold specInstantRateMBps
    norm_num

/-- Auxiliary invariant of the sample run: every emission's speed is the
code's average-since-start rate for that emission's own sample; the first
emission clears the interval gate against the incoming `lastUpdateTime`;
and consecutive emissions are at least the configured interval apart. -/
theorem runProgressSamples_inv (samples : List (Nat × Nat)) :
    ∀ st : ProgressState,
      (∀ e ∈ runProgressSamples st samples,
        e.speedMBps = codeSpeedMBps st.startTime e.downloadedBytes e.atTime) ∧
      (∀ e, (runProgressSamples st samples).head? = some e →
        st.lastUpdateTime + Config.PROGRESS_UPDATE_INTERVAL ≤ e.atTime) ∧
      List.Chain' (fun a b => a.atTime + Config.PROGRESS_UPDATE_INTERVAL ≤ b.atTime)
        (runProgressSamples st samples) := by
  induction samples with
  | nil => intro st; refine ⟨by simp [runProgressSamples], by simp [runProgressSamples], by simp [runProgressSamples]⟩
  | cons sample rest ih =>
    intro st
    obtain ⟨downloaded, t⟩ := sample
    by_cases hgate : Config.PROGRESS_UPDATE_INTERVAL ≤ t - st.lastUpdateTime
    · have hrun : runProgressSamples st ((downloaded, t) :: rest) =
          ⟨downloaded, t, codeSpeedMBps st.startTime downloaded t⟩ ::
            runProgressSamples ⟨st.startTime, t⟩ rest := by
        simp [runProgressSamples, progressCallbackSample, if_pos hgate]
      obtain ⟨ihspeed, ihhead, ihchain⟩ := ih ⟨st.startTime, t⟩
      refine ⟨?_, ?_, ?_⟩
      · intro e he
        rw [hrun] at he
        rcases List.mem_cons.mp he with h | h
        · subst h; rfl
        · exact ihspeed e h
      · intro e he
        rw [hrun] at he
        simp only [List.head?_cons, Option.some.injEq] at he
        subst he
        have h500 : 0 < Config.PROGRESS_UPDATE_INTERVAL := by decide
        simp only []
        omega
      · rw [hrun, List.chain'_cons']
        refine ⟨?_, ihchain⟩
        intro b hb
        have := ihhead b hb
        simpa using this
    · have hrun : runProgressSamples st ((downloaded, t) :: rest) =
          runProgressSamples st rest := by
        simp [runProgressSamples, progressCallbackSample, if_neg hgate]
      rw [hrun]
      exact ih st

/-- C8 (amended): an update is emitted only when at least
`PROGRESS_UPDATE_INTERVAL` has elapsed since the previous emission (first
emission included, against the initial `lastUpdateTime`); the emitted rate
is the bytes downloaded since the start of the attempt divided by the wall
time elapsed since the start of the attempt (an average rate, not a rate
since the last emission); and on natural stream completion the final
`'complete'` message is posted unconditionally, whatever the gate state. -/
theorem progress_emission_policy (st : ProgressState)
    (samples : List (Nat × Nat)) :
    (∀ e ∈ runProgressSamples st samples,
      e.speedMBps = codeSpeedMBps st.startTime e.downloadedBytes e.atTime) ∧
    (∀ e, (runProgressSamples st samples).head? = some e →
      st.lastUpdateTime + Config.PROGRESS_UPDATE_INTERVAL ≤ e.atTime) ∧
    List.Chain' (fun a b => a.atTime + Config.PROGRESS_UPDATE_INTERVAL ≤ b.atTime)
      (runProgressSamples st samples) ∧
    (downloadMediaMessagesOnSuccess st samples).getLast? =
      some (ParentMessage.complete none) := by
  obtain ⟨h1, h2, h3⟩ := runProgressSamples_inv samples st
  refine ⟨h1, h2, h3, ?_⟩
  unfold downloadMediaMessagesOnSuccess
  exact List.getLast?_concat _

/-- C8 amended witness: on the concrete two-sample trace, the second
emission's speed equals the average-since-start rate, and the completion
message closes the sequence. -/
theorem progress_emission_policy_witness :
    (⟨1048576, 2000, codeSpeedMBps 0 1048576 2000⟩ : ProgressEmission).speedMBps =
      codeSpeedMBps 0 1048576 2000 ∧
    (downloadMediaMessagesOnSuccess ⟨0, 0⟩ [(1048576, 1000), (1048576, 2000)]).getLast? =
      some (ParentMessage.complete none) :=
  ⟨(progress_emission_policy ⟨0, 0⟩ [(1048576, 1000), (1048576, 2000)]).1
      ⟨1048576, 2000, codeSpeedMBps 0 1048576 2000⟩
      (by
        have hrun : runProgressSamples ⟨0, 0⟩ [(1048576, 1000), (1048576, 2000)] =
            [⟨1048576, 1000, codeSpeedMBps 0 1048576 1000⟩,
              ⟨1048576, 2000, codeSpeedMBps 0 1048576 2000⟩] := rfl
        rw [hrun]
        simp),
    (progress_emission_policy ⟨0, 0⟩ [(1048576, 1000), (1048576, 2000)]).2.2.2⟩

/-! ## Rolling traversal

The rolling download mode is documented in the repository's README
("Rolling input") but its implementation is not among the source files
under version control here, so the traversal is modelled from the spec. -/

/-- Modelled from the spec: what fetching one message id can report to the
Rolling Traversal — a message carrying downloadable media, a message
without media (passed over), an id-out-of-range condition (end of
channel), or any other single-message fetch error (logged and skipped). -/
inductive FetchResult
  | mediaFound
  | noMedia
  | idOutOfRange
  | fetchError
deriving DecidableEq

/-- Modelled from the spec (§4.5 Scanning, missing from src/): walk the
message-id space one id per iteration.  `remaining` is the size of the
window still to scan (`lastKnownMessageId + 1 - currentMessageId`), the
structural counter for the `currentMessageId ≤ lastKnownMessageId` loop;
an `idOutOfRange` fetch ends the traversal at that probe; every other
outcome — media, no media, or a skipped fetch error — records the id and
advances `currentMessageId` by exactly one. -/
def rollingScan (fetch : Nat → FetchResult) :
    Nat → Nat → List (Nat × FetchResult)
  | _, 0 => []
  | current, remaining + 1 =>
    if fetch current = FetchResult.idOutOfRange then
      [(current, FetchResult.idOutOfRange)]
    else (current, fetch current) :: rollingScan fetch (current + 1) remaining

/-- Modelled from the spec: the whole Scanning phase, from
`currentMessageId` up to a definite `lastKnownMessageId`. -/
def rollingTraverse (fetch : Nat → FetchResult) (current lastKnown : Nat) :
    List (Nat × FetchResult) :=
  rollingScan fetch current (lastKnown + 1 - current)

/-- Modelled from the spec: the ids submitted as DownloadTasks — exactly
the processed messages that carried downloadable media. -/
def submittedTasks (fetch : Nat → FetchResult) (current lastKnown : Nat) :
    List Nat :=
  ((rollingTraverse fetch current lastKnown).filter
    (fun pr => decide (pr.2 = FetchResult.mediaFound))).map Prod.fst

/-- Auxiliary: the i-th entry of a scan window starts at `current` and
advances by exactly one per iteration. -/
theorem rollingScan_get? (fetch : Nat → FetchResult) (remaining : Nat) :
    ∀ (current i : Nat) (pr : Nat × FetchResult),
      (rollingScan fetch current remaining).get? i = some pr →
      pr = (current + i, fetch (current + i)) := by
  induction remaining with
  | zero => intro current i pr h; simp [rollingScan] at h
  | succ n ih =>
    intro current i pr h
    by_cases hoor : fetch current = FetchResult.idOutOfRange
    · rw [show rollingScan fetch current (n + 1) =
          [(current, FetchResult.idOutOfRange)] by
            simp [rollingScan, if_pos hoor]] at h
      cases i with
      | zero => simp at h; simp [← h, hoor]
      | succ j => simp at h
    · rw [show rollingScan fetch current (n + 1) =
          (current, fetch current) :: rollingScan fetch (current + 1) n by
            simp [rollingScan, if_neg hoor]] at h
      cases i with
      | zero => simp at h; simp [← h]
      | succ j =>
        simp only [List.get?_cons_succ] at h
        have hrec := ih (current + 1) j pr h
        have harith : current + 1 + j = current + (j + 1) := by omega
        rw [hrec, harith]

/-- C9 (spec-modelled): every processed entry of the Rolling Traversal is
at id `currentMessageId + i` for its position `i` — the ids advance
strictly monotonically by exactly one per iteration whatever each
iteration's outcome — and a task is submitted for an id exactly when its
processed entry carried media, so no-media messages (and skipped fetch
errors) are passed over without submitting a task. -/
theorem rolling_ids_consecutive (fetch : Nat → FetchResult)
    (current lastKnown : Nat) :
    (∀ (i : Nat) (pr : Nat × FetchResult),
      (rollingTraverse fetch current lastKnown).get? i = some pr →
      pr = (current + i, fetch (current + i))) ∧
    (∀ n : Nat, n ∈ submittedTasks fetch current lastKnown ↔
      (n, FetchResult.mediaFound) ∈ rollingTraverse fetch current lastKnown) := by
  constructor
  · intro i pr h
    exact rollingScan_get? fetch (lastKnown + 1 - current) current i pr h
  · intro n
    simp only [submittedTasks, List.mem_map, List.mem_filter, decide_eq_true_eq]
    constructor
    · rintro ⟨⟨a, b⟩, ⟨hmem, hb⟩, rfl⟩
      exact hb ▸ hmem
    · intro hmem
      exact ⟨(n, FetchResult.mediaFound), ⟨hmem, rfl⟩, rfl⟩

/-- C9 witness: the spec's scenario — traversal starting at id 100 with
`lastKnownMessageId = 103`, media at 101 and 103 only — processes id 102
at position 2 and submits a task for 101. -/
theorem rolling_ids_consecutive_witness :
    ((100 : Nat) + 2, (fun n => if n = 101 ∨ n = 103 then FetchResult.mediaFound
        else FetchResult.noMedia) 102) = (102, FetchResult.noMedia) ∧
    101 ∈ submittedTasks
      (fun n => if n = 101 ∨ n = 103 then FetchResult.mediaFound
        else FetchResult.noMedia) 100 103 := by
  constructor
  · have := (rolling_ids_consecutive
      (fun n => if n = 101 ∨ n = 103 then FetchResult.mediaFound
        else FetchResult.noMedia) 100 103).1 2
      (102, FetchResult.noMedia) (by decide)
    rw [← this]
  · exact (rolling_ids_consecutive
      (fun n => if n = 101 ∨ n = 103 then FetchResult.mediaFound
        else FetchResult.noMedia) 100 103).2 101 |>.mpr (by decide)

/-! ## Batch file reading (src/index.js, `readLinksFromFile`)

`readLinksFromFile` reads the file, splits its content on newline
characters and keeps the lines that are non-empty after trimming; any read
error is caught, logged and turned into an empty list.  The `Option`
argument stands for the read attempt: `none` is a failed read. -/

/-- src/index.js `readLinksFromFile` (identical in both revisions). -/
def readLinksFromFile : Option String → List String
  | none => []
  | some fileContent =>
    (fileContent.splitOn "\n").filter (fun line => line.trim != "")

/-- C10: a failed read yields the empty list rather than propagating the
error; and on a successful read the result is exactly the file's lines
that are non-empty after trimming, in their original order — it is a
sublist of the split lines, and each line occurs in it exactly as often as
in the file when its trim is non-empty and never otherwise. -/
theorem readLinksFromFile_spec :
    readLinksFromFile none = [] ∧
    ∀ content : String,
      List.Sublist (readLinksFromFile (some content)) (content.splitOn "\n") ∧
      ∀ l : String,
        List.count l (readLinksFromFile (some content)) =
          if l.trim ≠ "" then List.count l (content.splitOn "\n") else 0 := by
  refine ⟨rfl, ?_⟩
  intro content
  refine ⟨List.filter_sublist _, ?_⟩
  intro l
  by_cases htrim : l.trim = ""
  · rw [if_neg (by simpa using htrim)]
    refine List.count_eq_zero.mpr ?_
    intro hmem
    have := List.of_mem_filter hmem
    simp [htrim] at this
  · rw [if_pos htrim]
    exact List.count_filter (by simpa using htrim)

end TFD
